import Mathlib

/-!
Verification of the OBD-II request/response core of the `ev_info_display`
firmware.  The C sources are shallowly embedded: module-static variables
become explicit state structures, each C function becomes a Lean function
from state (and inputs) to state (and observable outputs), machine bytes
are `Nat` values below 256, and the byte-level arithmetic (`& 0xF0`,
`& 0x0F`, `+ 0x40`, wrap-around of `uint8_t`) is written out with `%`.
-/

set_option maxRecDepth 8000

namespace EvInfo

/-! ## Byte helpers

CAN frame data bytes are `uint8_t` in the source; a byte read from a frame
is therefore reduced `% 256`.  `hiNib`/`loNib` are `b & 0xF0` (compared
against `0x00/0x10/0x20`, i.e. the high nibble) and `b & 0x0F`. -/

/-- Read byte `i` of a frame payload (uint8_t, out-of-range reads default 0). -/
def byteAt (data : List Nat) (i : Nat) : Nat := data.getD i 0 % 256

/-- High nibble of a byte: `(b & 0xF0) >> 4` for `b < 256`. -/
def hiNib (b : Nat) : Nat := b / 16

/-- Low nibble of a byte: `b & 0x0F`. -/
def loNib (b : Nat) : Nat := b % 16

/-! ## Vehicle manager: response matching (`vehicle_manager.c`)

`can_request_t` mirrors the request-descriptor struct; `data` holds the
8 request payload bytes (byte 0 = ISO-TP PCI / request length, byte 1 =
UDS SID, bytes 2.. = sub-function/DID bytes). -/

structure can_request_t where
  req_id : Nat
  rsp_id : Nat
  req_len : Nat
  data : List Nat
  deriving Repr, DecidableEq

/-- One iteration of the matching loop of `vm_get_resp_index`: CAN id and
positive-response SID echo check, then length check
(`resp_data_len <= req_list[i]->data[0]` fails the match), then the
`n = data[0] - 1` sub-function/DID byte comparisons
(`resp_data[j-1] == req_list[i]->data[j]` for `j = 2..n+1`). -/
def vm_entry_match (resp_can_id resp_data_len : Nat) (resp_data : List Nat)
    (e : can_request_t) : Bool :=
  ((resp_can_id == e.rsp_id) && (resp_data.getD 0 0 == e.data.getD 1 0 + 0x40)) &&
  (if resp_data_len ≤ e.data.getD 0 0 then false
   else (List.range (e.data.getD 0 0 - 1)).all fun k =>
     resp_data.getD (k + 1) 0 == e.data.getD (k + 2) 0)

/-- The search loop of `vm_get_resp_index`: first matching entry wins. -/
def vm_find_index (resp_can_id resp_data_len : Nat) (resp_data : List Nat)
    (i : Nat) : List can_request_t → Int
  | [] => -1
  | e :: rest =>
      if vm_entry_match resp_can_id resp_data_len resp_data e then Int.ofNat i
      else vm_find_index resp_can_id resp_data_len resp_data (i + 1) rest

/-- `vm_get_resp_index` from `vehicle_manager.c`: `-1` for responses shorter
than 2 bytes and for negative responses (`data[0] == 0x7F`), otherwise the
index of the first catalogue entry the response matches (or `-1`). -/
def vm_get_resp_index (resp_can_id resp_data_len : Nat) (resp_data : List Nat)
    (req_list : List can_request_t) : Int :=
  if resp_data_len < 2 then -1
  else if resp_data.getD 0 0 == 0x7F then -1
  else vm_find_index resp_can_id resp_data_len resp_data 0 req_list

/-- Spec-side matching predicate, phrased exactly as the claim states it:
the response id equals the entry's response id, byte 0 is the entry's SID
plus `0x40`, the length exceeds the entry's request length byte, and the
`data[0] - 1` sub-function/DID bytes starting at `data[1]` equal the
entry's bytes from index 2 on. -/
def resp_matches (resp_can_id resp_data_len : Nat) (resp_data : List Nat)
    (e : can_request_t) : Prop :=
  resp_can_id = e.rsp_id ∧
  resp_data.getD 0 0 = e.data.getD 1 0 + 0x40 ∧
  e.data.getD 0 0 < resp_data_len ∧
  ∀ k, k < e.data.getD 0 0 - 1 → resp_data.getD (k + 1) 0 = e.data.getD (k + 2) 0

lemma vm_entry_match_iff (resp_can_id resp_data_len : Nat) (resp_data : List Nat)
    (e : can_request_t) :
    vm_entry_match resp_can_id resp_data_len resp_data e = true ↔
      resp_matches resp_can_id resp_data_len resp_data e := by
  unfold vm_entry_match resp_matches
  by_cases hlen : resp_data_len ≤ e.data.getD 0 0
  · rw [if_pos hlen]
    simp only [Bool.and_false, Bool.false_eq_true, false_iff]
    rintro ⟨-, -, h3, -⟩
    omega
  · rw [if_neg hlen]
    rw [Bool.and_eq_true, Bool.and_eq_true, List.all_eq_true]
    simp only [beq_iff_eq, List.mem_range]
    constructor
    · rintro ⟨⟨h1, h2⟩, h3⟩
      exact ⟨h1, h2, by omega, h3⟩
    · rintro ⟨h1, h2, -, h3⟩
      exact ⟨⟨h1, h2⟩, h3⟩

lemma vm_find_index_eq_neg_one (resp_can_id resp_data_len : Nat)
    (resp_data : List Nat) (i : Nat) (l : List can_request_t)
    (h : ∀ e ∈ l, ¬ resp_matches resp_can_id resp_data_len resp_data e) :
    vm_find_index resp_can_id resp_data_len resp_data i l = -1 := by
  induction l generalizing i with
  | nil => rfl
  | cons e rest ih =>
      have he : ¬ resp_matches resp_can_id resp_data_len resp_data e :=
        h e (List.mem_cons_self e rest)
      have hm : vm_entry_match resp_can_id resp_data_len resp_data e = false := by
        rw [← Bool.not_eq_true, vm_entry_match_iff]
        exact he
      unfold vm_find_index
      rw [hm]
      simp only [Bool.false_eq_true, if_false]
      exact ih (i + 1) fun x hx => h x (List.mem_cons_of_mem e hx)

lemma vm_find_index_first (resp_can_id resp_data_len : Nat)
    (resp_data : List Nat) (i : Nat) (l : List can_request_t) (j : Nat)
    (hj : j < l.length)
    (hmatch : resp_matches resp_can_id resp_data_len resp_data (l.get ⟨j, hj⟩))
    (hbefore : ∀ k (hk : k < j),
      ¬ resp_matches resp_can_id resp_data_len resp_data
        (l.get ⟨k, Nat.lt_trans hk hj⟩)) :
    vm_find_index resp_can_id resp_data_len resp_data i l = Int.ofNat (i + j) := by
  induction l generalizing i j with
  | nil => exact absurd hj (Nat.not_lt_zero j)
  | cons e rest ih =>
      unfold vm_find_index
      cases j with
      | zero =>
          have hm : vm_entry_match resp_can_id resp_data_len resp_data e = true := by
            rw [vm_entry_match_iff]
            exact hmatch
          rw [hm]
          simp
      | succ j =>
          have hm : vm_entry_match resp_can_id resp_data_len resp_data e = false := by
            rw [← Bool.not_eq_true, vm_entry_match_iff]
            exact hbefore 0 (Nat.succ_pos j)
          rw [hm]
          simp only [Bool.false_eq_true, if_false]
          have hj2 : j < rest.length := Nat.lt_of_succ_lt_succ hj
          have := ih (i + 1) j hj2 hmatch
            (fun k hk => hbefore (k + 1) (Nat.succ_lt_succ hk))
          rw [this]
          congr 1
          omega

/-- C2: `vm_get_resp_index` rejects responses shorter than 2 bytes and
negative responses (`0x7F`), returns `-1` when no catalogue entry matches,
and otherwise returns the index of the first matching entry, where a match
is exactly the claim's conditions (`resp_matches`).  The well-formedness
hypothesis `1 ≤ entry.data[0]` holds for every catalogue in the firmware
(`data[0]` is the ISO-TP single-frame request length, 2 or 3 in all
descriptors); for `data[0] == 0` the C comparison loop (`int n = data[0]-1;
while (n--)`) leaves the function's domain.  Determinism is immediate: the
embedding is a pure function of its arguments. -/
theorem vm_get_resp_index_spec (resp_can_id resp_data_len : Nat)
    (resp_data : List Nat) (cat : List can_request_t)
    (hwf : ∀ e ∈ cat, 1 ≤ e.data.getD 0 0) :
    (resp_data_len < 2 →
      vm_get_resp_index resp_can_id resp_data_len resp_data cat = -1) ∧
    (resp_data.getD 0 0 = 0x7F →
      vm_get_resp_index resp_can_id resp_data_len resp_data cat = -1) ∧
    (2 ≤ resp_data_len → resp_data.getD 0 0 ≠ 0x7F →
      ((∀ e ∈ cat, ¬ resp_matches resp_can_id resp_data_len resp_data e) →
        vm_get_resp_index resp_can_id resp_data_len resp_data cat = -1) ∧
      (∀ j (hj : j < cat.length),
        resp_matches resp_can_id resp_data_len resp_data (cat.get ⟨j, hj⟩) →
        (∀ k (hk : k < j),
          ¬ resp_matches resp_can_id resp_data_len resp_data
            (cat.get ⟨k, Nat.lt_trans hk hj⟩)) →
        vm_get_resp_index resp_can_id resp_data_len resp_data cat =
          Int.ofNat j)) := by
  refine ⟨fun h => ?_, fun h => ?_, fun h2 h7 => ⟨fun hnone => ?_, fun j hj hm hb => ?_⟩⟩
  · unfold vm_get_resp_index
    rw [if_pos h]
  · unfold vm_get_resp_index
    by_cases hl : resp_data_len < 2
    · rw [if_pos hl]
    · rw [if_neg hl, if_pos (by simpa using h)]
  · unfold vm_get_resp_index
    rw [if_neg (by omega), if_neg (by simpa using h7)]
    exact vm_find_index_eq_neg_one _ _ _ _ _ hnone
  · unfold vm_get_resp_index
    rw [if_neg (by omega), if_neg (by simpa using h7)]
    have hres := vm_find_index_first resp_can_id resp_data_len resp_data 0 cat j hj hm hb
    rw [hres, Nat.zero_add]

/-- Concrete catalogue rows used by the witness (from `vehicle_leaf_ze1.c`). -/
def leaf_req_gear_position : can_request_t :=
  ⟨0x797, 0x79A, 8, [0x03, 0x22, 0x11, 0x56, 0x00, 0x00, 0x00, 0x00]⟩

def leaf_req_12v_batt_v : can_request_t :=
  ⟨0x797, 0x79A, 8, [0x03, 0x22, 0x11, 0x03, 0x00, 0x00, 0x00, 0x00]⟩

def leaf_req_hv_batt_info : can_request_t :=
  ⟨0x79B, 0x7BB, 8, [0x02, 0x21, 0x01, 0x00, 0x00, 0x00, 0x00, 0x00]⟩

/-- Witness for C2: the spec's scenario 1 response `62 11 03 B4` on id
`0x79A` resolves to the 12 V battery-voltage entry (index 1), skipping the
gear-position entry whose DID differs. -/
theorem vm_get_resp_index_spec_witness :
    vm_get_resp_index 0x79A 5 [0x62, 0x11, 0x03, 0xB4, 0x00]
      [leaf_req_gear_position, leaf_req_12v_batt_v, leaf_req_hv_batt_info] =
      Int.ofNat 1 := by
  have h := (vm_get_resp_index_spec 0x79A 5 [0x62, 0x11, 0x03, 0xB4, 0x00]
      [leaf_req_gear_position, leaf_req_12v_batt_v, leaf_req_hv_batt_info]
      (by decide)).2.2 (by decide) (by decide)
  refine h.2 1 (by decide) ?_ ?_
  · show resp_matches 0x79A 5 [0x62, 0x11, 0x03, 0xB4, 0x00] leaf_req_12v_batt_v
    unfold resp_matches leaf_req_12v_batt_v
    refine ⟨by decide, by decide, by decide, ?_⟩
    decide
  · intro k hk
    have hk0 : k = 0 := by omega
    subst hk0
    show ¬ resp_matches 0x79A 5 [0x62, 0x11, 0x03, 0xB4, 0x00] leaf_req_gear_position
    unfold resp_matches leaf_req_gear_position
    decide

/-! ## CAN manager: ISO-TP reassembly (`can_manager.c`, `can_rx_packet`)

The function's `static` locals (`num_rx_bytes`, `data_index`, `seq_num`)
together with the module statics `cur_req_id`/`cur_rsp_id` form the state.
`data_buf` is modelled by the list `buf` of the `data_index` assembled
bytes (the first frame's declared total is at most `0xFFF`, below the 4096
byte capacity, so the array never overflows and the list view is exact).
Observable effects are the deliveries to `vm_rx_data`, the flow-control
transmissions, and the `fcn_response_complete` calls. -/

structure IsoTpState where
  cur_req_id : Nat
  cur_rsp_id : Nat
  num_rx_bytes : Nat
  buf : List Nat
  seq_num : Nat
  deriving Repr, DecidableEq

structure RxOutput where
  deliveries : List (Nat × Nat × List Nat)
  fc : List (Nat × List Nat)
  completes : Nat
  deriving Repr, DecidableEq

def RxOutput.empty : RxOutput := ⟨[], [], 0⟩

def RxOutput.app (a b : RxOutput) : RxOutput :=
  ⟨a.deliveries ++ b.deliveries, a.fc ++ b.fc, a.completes + b.completes⟩

/-- Data for the flow-control message (`can_manager.c` line 64). -/
def flow_control_data : List Nat := [0x30, 0x00, 0x00, 0x00, 0x00, 0x00, 0x00, 0x00]

/-- Result of the `switch (data[0] & 0xF0)` classification: the three frame
flags, the index of the first data byte, and the values of `num_rx_bytes`,
`data_index`/buffer and `seq_num` after the switch. -/
structure RxClass where
  isSF : Bool
  isFF : Bool
  isCF : Bool
  rxIdx : Nat
  num : Nat
  buf : List Nat
  seq : Nat

def can_rx_classify (s : IsoTpState) (data : List Nat) : RxClass :=
  if 0 < data.length then
    if hiNib (byteAt data 0) = 0 then
      -- single frame: collect from byte 1, length = low nibble,
      -- seq_num = 0xFF to ignore stray consecutive frames
      ⟨true, false, false, 1, loNib (byteAt data 0), [], 0xFF⟩
    else if hiNib (byteAt data 0) = 1 then
      if 1 < data.length then
        -- first frame: total = (low nibble << 8) | byte 1, data from byte 2
        ⟨false, true, false, 2, loNib (byteAt data 0) * 256 + byteAt data 1, [], 0⟩
      else
        -- invalid first frame: force an invalid sequence number
        ⟨false, false, false, 0, s.num_rx_bytes, s.buf, 0xFF⟩
    else if hiNib (byteAt data 0) = 2 then
      -- consecutive frame
      ⟨false, false, true, 1, s.num_rx_bytes, s.buf, s.seq_num⟩
    else
      ⟨false, false, false, 0, s.num_rx_bytes, s.buf, s.seq_num⟩
  else
    ⟨false, false, false, 0, s.num_rx_bytes, s.buf, s.seq_num⟩

/-- The copy loop runs for single frames, first frames, and consecutive
frames whose low nibble equals the expected sequence number. -/
def can_rx_accepted (s : IsoTpState) (data : List Nat) : Bool :=
  (can_rx_classify s data).isSF || (can_rx_classify s data).isFF ||
    ((can_rx_classify s data).isCF &&
      (loNib (byteAt data 0) == (can_rx_classify s data).seq))

/-- Buffer contents after the copy loop (`while (rx_data_index < len &&
data_index < num_rx_bytes) data_buf[data_index++] = data[rx_data_index++]`). -/
def can_rx_buf2 (s : IsoTpState) (data : List Nat) : List Nat :=
  if can_rx_accepted s data then
    (can_rx_classify s data).buf ++
      (data.drop (can_rx_classify s data).rxIdx).take
        ((can_rx_classify s data).num - (can_rx_classify s data).buf.length)
  else (can_rx_classify s data).buf

/-- Sequence counter after the frame (`seq_num = (seq_num + 1) & 0x0F`
inside the copy branch). -/
def can_rx_seq2 (s : IsoTpState) (data : List Nat) : Nat :=
  if can_rx_accepted s data then ((can_rx_classify s data).seq + 1) % 16
  else (can_rx_classify s data).seq

/-- Observable output of one accepted-id frame: on a complete buffer, stop
the driver timer (`completes`) and deliver to the vehicle manager; after a
first frame, send a flow-control packet when a request id was captured. -/
def can_rx_out (s : IsoTpState) (rsp_id : Nat) (data : List Nat) : RxOutput :=
  let out1 : RxOutput :=
    if can_rx_accepted s data &&
        ((can_rx_buf2 s data).length == (can_rx_classify s data).num)
    then ⟨[(rsp_id, (can_rx_classify s data).num, can_rx_buf2 s data)], [], 1⟩
    else RxOutput.empty
  if (can_rx_classify s data).isFF && (s.cur_req_id != 0)
  then ⟨out1.deliveries, out1.fc ++ [(s.cur_req_id, flow_control_data)], out1.completes⟩
  else out1

/-- `can_rx_packet` from `can_manager.c`: frames whose id differs from
`cur_rsp_id` are dropped; otherwise the frame is classified, the copy loop
and sequence update run, and the outputs (delivery, timer stop, flow
control) are produced. -/
def can_rx_packet (s : IsoTpState) (rsp_id : Nat) (data : List Nat) :
    IsoTpState × RxOutput :=
  if rsp_id = s.cur_rsp_id then
    ({ s with num_rx_bytes := (can_rx_classify s data).num,
              buf := can_rx_buf2 s data, seq_num := can_rx_seq2 s data },
     can_rx_out s rsp_id data)
  else (s, RxOutput.empty)

lemma can_rx_packet_eq (s : IsoTpState) (rsp_id : Nat) (data : List Nat)
    (h : rsp_id = s.cur_rsp_id) :
    can_rx_packet s rsp_id data =
      ({ s with num_rx_bytes := (can_rx_classify s data).num,
                buf := can_rx_buf2 s data, seq_num := can_rx_seq2 s data },
       can_rx_out s rsp_id data) := by
  unfold can_rx_packet
  rw [if_pos h]

lemma can_rx_packet_fst_eq (s : IsoTpState) (rsp_id : Nat) (data : List Nat)
    (h : rsp_id = s.cur_rsp_id) :
    (can_rx_packet s rsp_id data).1 =
      { s with num_rx_bytes := (can_rx_classify s data).num,
               buf := can_rx_buf2 s data, seq_num := can_rx_seq2 s data } := by
  rw [can_rx_packet_eq s rsp_id data h]

lemma can_rx_packet_snd_deliveries_eq (s : IsoTpState) (rsp_id : Nat)
    (data : List Nat) (h : rsp_id = s.cur_rsp_id) :
    (can_rx_packet s rsp_id data).2.deliveries =
      (can_rx_out s rsp_id data).deliveries := by
  rw [can_rx_packet_eq s rsp_id data h]

lemma can_rx_out_fc (s : IsoTpState) (rsp_id : Nat) (data : List Nat) :
    (can_rx_out s rsp_id data).fc =
      if ((can_rx_classify s data).isFF && (s.cur_req_id != 0)) = true
      then [(s.cur_req_id, flow_control_data)] else [] := by
  unfold can_rx_out
  split_ifs <;> rfl

lemma can_rx_out_deliveries (s : IsoTpState) (rsp_id : Nat) (data : List Nat) :
    (can_rx_out s rsp_id data).deliveries =
      if (can_rx_accepted s data &&
          ((can_rx_buf2 s data).length == (can_rx_classify s data).num)) = true
      then [(rsp_id, (can_rx_classify s data).num, can_rx_buf2 s data)]
      else [] := by
  unfold can_rx_out
  split_ifs <;> rfl

lemma can_rx_classify_sf (s : IsoTpState) (data : List Nat)
    (hl : 0 < data.length) (h0 : hiNib (byteAt data 0) = 0) :
    can_rx_classify s data =
      ⟨true, false, false, 1, loNib (byteAt data 0), [], 0xFF⟩ := by
  unfold can_rx_classify
  rw [if_pos hl, if_pos h0]

lemma can_rx_classify_ff (s : IsoTpState) (data : List Nat)
    (hl : 1 < data.length) (h1 : hiNib (byteAt data 0) = 1) :
    can_rx_classify s data =
      ⟨false, true, false, 2, loNib (byteAt data 0) * 256 + byteAt data 1, [], 0⟩ := by
  unfold can_rx_classify
  rw [if_pos (by omega), if_neg (by omega), if_pos h1, if_pos hl]

lemma can_rx_classify_cf (s : IsoTpState) (data : List Nat)
    (hl : 0 < data.length) (h2 : hiNib (byteAt data 0) = 2) :
    can_rx_classify s data =
      ⟨false, false, true, 1, s.num_rx_bytes, s.buf, s.seq_num⟩ := by
  unfold can_rx_classify
  rw [if_pos hl, if_neg (by omega), if_neg (by omega), if_pos h2]

lemma can_rx_classify_isFF (s : IsoTpState) (data : List Nat) :
    (can_rx_classify s data).isFF =
      (decide (2 ≤ data.length) && decide (hiNib (byteAt data 0) = 1)) := by
  unfold can_rx_classify
  by_cases hl : 0 < data.length
  · by_cases h0 : hiNib (byteAt data 0) = 0
    · rw [if_pos hl, if_pos h0]
      simp [h0]
    · by_cases h1 : hiNib (byteAt data 0) = 1
      · by_cases hl2 : 1 < data.length
        · rw [if_pos hl, if_neg h0, if_pos h1, if_pos hl2]
          have h2 : 2 ≤ data.length := hl2
          simp [h1, h2]
        · rw [if_pos hl, if_neg h0, if_pos h1, if_neg hl2]
          have h2 : ¬ 2 ≤ data.length := by omega
          simp [h2]
      · by_cases h2 : hiNib (byteAt data 0) = 2
        · rw [if_pos hl, if_neg h0, if_neg h1, if_pos h2]
          simp [h1]
        · rw [if_pos hl, if_neg h0, if_neg h1, if_neg h2]
          simp [h1]
  · rw [if_neg hl]
    have h2 : ¬ 2 ≤ data.length := by omega
    simp [h2]

lemma can_rx_accepted_sf (s : IsoTpState) (data : List Nat)
    (hl : 0 < data.length) (h0 : hiNib (byteAt data 0) = 0) :
    can_rx_accepted s data = true := by
  unfold can_rx_accepted
  rw [can_rx_classify_sf s data hl h0]
  rfl

lemma can_rx_buf2_sf (s : IsoTpState) (data : List Nat)
    (hl : 0 < data.length) (h0 : hiNib (byteAt data 0) = 0) :
    can_rx_buf2 s data = (data.drop 1).take (loNib (byteAt data 0)) := by
  unfold can_rx_buf2
  rw [can_rx_accepted_sf s data hl h0, can_rx_classify_sf s data hl h0]
  simp

/-- Total byte count declared by a first frame:
`((data[0] & 0x0F) << 8) | data[1]`. -/
def ffTotal (data : List Nat) : Nat := loNib (byteAt data 0) * 256 + byteAt data 1

lemma can_rx_accepted_ff (s : IsoTpState) (data : List Nat)
    (hl : 1 < data.length) (h1 : hiNib (byteAt data 0) = 1) :
    can_rx_accepted s data = true := by
  unfold can_rx_accepted
  rw [can_rx_classify_ff s data hl h1]
  rfl

lemma can_rx_buf2_ff (s : IsoTpState) (data : List Nat)
    (hl : 1 < data.length) (h1 : hiNib (byteAt data 0) = 1) :
    can_rx_buf2 s data = (data.drop 2).take (ffTotal data) := by
  unfold can_rx_buf2
  rw [can_rx_accepted_ff s data hl h1, can_rx_classify_ff s data hl h1]
  simp [ffTotal]

lemma can_rx_seq2_ff (s : IsoTpState) (data : List Nat)
    (hl : 1 < data.length) (h1 : hiNib (byteAt data 0) = 1) :
    can_rx_seq2 s data = 1 := by
  unfold can_rx_seq2
  rw [can_rx_accepted_ff s data hl h1, can_rx_classify_ff s data hl h1]
  rfl

lemma can_rx_accepted_cf (s : IsoTpState) (data : List Nat)
    (hl : 0 < data.length) (h2 : hiNib (byteAt data 0) = 2) :
    can_rx_accepted s data = (loNib (byteAt data 0) == s.seq_num) := by
  unfold can_rx_accepted
  rw [can_rx_classify_cf s data hl h2]
  simp

lemma can_rx_buf2_cf (s : IsoTpState) (data : List Nat)
    (hl : 0 < data.length) (h2 : hiNib (byteAt data 0) = 2)
    (hseq : loNib (byteAt data 0) = s.seq_num) :
    can_rx_buf2 s data =
      s.buf ++ (data.drop 1).take (s.num_rx_bytes - s.buf.length) := by
  unfold can_rx_buf2
  rw [can_rx_accepted_cf s data hl h2, can_rx_classify_cf s data hl h2, hseq]
  simp

lemma can_rx_seq2_cf (s : IsoTpState) (data : List Nat)
    (hl : 0 < data.length) (h2 : hiNib (byteAt data 0) = 2)
    (hseq : loNib (byteAt data 0) = s.seq_num) :
    can_rx_seq2 s data = (s.seq_num + 1) % 16 := by
  unfold can_rx_seq2
  rw [can_rx_accepted_cf s data hl h2, can_rx_classify_cf s data hl h2, hseq]
  simp

lemma can_rx_classify_num_cf (s : IsoTpState) (data : List Nat)
    (hl : 0 < data.length) (h2 : hiNib (byteAt data 0) = 2) :
    (can_rx_classify s data).num = s.num_rx_bytes := by
  rw [can_rx_classify_cf s data hl h2]

lemma can_rx_out_cf (s : IsoTpState) (data : List Nat) (rsp_id : Nat)
    (hl : 0 < data.length) (h2 : hiNib (byteAt data 0) = 2)
    (hseq : loNib (byteAt data 0) = s.seq_num) :
    can_rx_out s rsp_id data =
      if (s.buf ++ (data.drop 1).take (s.num_rx_bytes - s.buf.length)).length
          = s.num_rx_bytes
      then ⟨[(rsp_id, s.num_rx_bytes,
             s.buf ++ (data.drop 1).take (s.num_rx_bytes - s.buf.length))], [], 1⟩
      else RxOutput.empty := by
  unfold can_rx_out
  rw [can_rx_accepted_cf s data hl h2, can_rx_buf2_cf s data hl h2 hseq,
      can_rx_classify_cf s data hl h2, hseq]
  simp

/-- Process a list of incoming frames (id, data) in arrival order. -/
def can_rx_run (s : IsoTpState) : List (Nat × List Nat) → IsoTpState × RxOutput
  | [] => (s, RxOutput.empty)
  | f :: fs =>
      let p := can_rx_packet s f.1 f.2
      let r := can_rx_run p.1 fs
      (r.1, RxOutput.app p.2 r.2)

lemma can_rx_run_cons_deliveries (s : IsoTpState) (id : Nat) (d : List Nat)
    (fs : List (Nat × List Nat)) :
    (can_rx_run s ((id, d) :: fs)).2.deliveries =
      (can_rx_packet s id d).2.deliveries ++
        (can_rx_run (can_rx_packet s id d).1 fs).2.deliveries := rfl

lemma can_rx_packet_cf_full (s : IsoTpState) (cf : List Nat)
    (hl : 0 < cf.length) (h2 : hiNib (byteAt cf 0) = 2)
    (hseq : loNib (byteAt cf 0) = s.seq_num) :
    can_rx_packet s s.cur_rsp_id cf =
      ({ s with buf := s.buf ++ (cf.drop 1).take (s.num_rx_bytes - s.buf.length),
                seq_num := (s.seq_num + 1) % 16 },
       if (s.buf ++ (cf.drop 1).take (s.num_rx_bytes - s.buf.length)).length
           = s.num_rx_bytes
       then ⟨[(s.cur_rsp_id, s.num_rx_bytes,
              s.buf ++ (cf.drop 1).take (s.num_rx_bytes - s.buf.length))], [], 1⟩
       else RxOutput.empty) := by
  rw [can_rx_packet_eq s s.cur_rsp_id cf rfl, can_rx_classify_num_cf s cf hl h2,
      can_rx_buf2_cf s cf hl h2 hseq, can_rx_seq2_cf s cf hl h2 hseq,
      can_rx_out_cf s cf s.cur_rsp_id hl h2 hseq]

lemma can_rx_packet_cf_fst (s : IsoTpState) (cf : List Nat)
    (hl : 0 < cf.length) (h2 : hiNib (byteAt cf 0) = 2)
    (hseq : loNib (byteAt cf 0) = s.seq_num) :
    (can_rx_packet s s.cur_rsp_id cf).1 =
      { s with buf := s.buf ++ (cf.drop 1).take (s.num_rx_bytes - s.buf.length),
               seq_num := (s.seq_num + 1) % 16 } := by
  rw [can_rx_packet_cf_full s cf hl h2 hseq]

lemma can_rx_packet_cf_deliveries (s : IsoTpState) (cf : List Nat)
    (hl : 0 < cf.length) (h2 : hiNib (byteAt cf 0) = 2)
    (hseq : loNib (byteAt cf 0) = s.seq_num) :
    (can_rx_packet s s.cur_rsp_id cf).2.deliveries =
      if (s.buf ++ (cf.drop 1).take (s.num_rx_bytes - s.buf.length)).length
          = s.num_rx_bytes
      then [(s.cur_rsp_id, s.num_rx_bytes,
            s.buf ++ (cf.drop 1).take (s.num_rx_bytes - s.buf.length))]
      else [] := by
  rw [can_rx_packet_cf_full s cf hl h2 hseq]
  by_cases h : (s.buf ++ (cf.drop 1).take (s.num_rx_bytes - s.buf.length)).length
      = s.num_rx_bytes
  · rw [if_pos h, if_pos h]
  · rw [if_neg h, if_neg h]
    rfl

/-- `can_tx_packet` records the request/response id pair as the current
expectation before forwarding the frame to the driver. -/
def can_tx_packet_ids (s : IsoTpState) (req_id rsp_id : Nat) : IsoTpState :=
  { s with cur_req_id := req_id, cur_rsp_id := rsp_id }

lemma RxOutput.empty_app (b : RxOutput) : RxOutput.app RxOutput.empty b = b := by
  cases b
  simp [RxOutput.app, RxOutput.empty]

lemma RxOutput.app_empty (a : RxOutput) : RxOutput.app a RxOutput.empty = a := by
  cases a
  simp [RxOutput.app, RxOutput.empty]

lemma can_rx_packet_preserves_ids (s : IsoTpState) (rsp_id : Nat) (data : List Nat) :
    (can_rx_packet s rsp_id data).1.cur_req_id = s.cur_req_id ∧
    (can_rx_packet s rsp_id data).1.cur_rsp_id = s.cur_rsp_id := by
  unfold can_rx_packet
  by_cases hid : rsp_id = s.cur_rsp_id
  · rw [if_pos hid]
    exact ⟨rfl, rfl⟩
  · rw [if_neg hid]
    exact ⟨rfl, rfl⟩

lemma can_rx_packet_other_id (s : IsoTpState) (rsp_id : Nat) (data : List Nat)
    (h : rsp_id ≠ s.cur_rsp_id) :
    can_rx_packet s rsp_id data = (s, RxOutput.empty) := by
  unfold can_rx_packet
  rw [if_neg h]

/-- Frames whose id is not the current response id are dropped without
touching state: processing a frame list is processing its sub-sequence of
frames on the expected id. -/
lemma can_rx_run_filter (frames : List (Nat × List Nat)) (s : IsoTpState) :
    can_rx_run s frames =
      can_rx_run s (frames.filter fun f => f.1 == s.cur_rsp_id) := by
  induction frames generalizing s with
  | nil => rfl
  | cons f fs ih =>
      by_cases h : f.1 = s.cur_rsp_id
      · rw [List.filter_cons_of_pos (by simpa using h)]
        show (let p := can_rx_packet s f.1 f.2
              let r := can_rx_run p.1 fs
              (r.1, RxOutput.app p.2 r.2)) = _
        have hid : (can_rx_packet s f.1 f.2).1.cur_rsp_id = s.cur_rsp_id :=
          (can_rx_packet_preserves_ids s f.1 f.2).2
        simp only [can_rx_run]
        rw [ih, hid]
      · rw [List.filter_cons_of_neg (by simpa using h)]
        simp only [can_rx_run]
        rw [can_rx_packet_other_id s f.1 f.2 h, ← ih]
        simp [RxOutput.empty_app]

/-- C7: a flow-control frame — exactly the 8 bytes
`30 00 00 00 00 00 00 00`, addressed to the captured request id — is
transmitted if and only if the incoming frame is on the expected response
id, is a first frame (PCI high nibble `0x1`) of at least two bytes, and
the captured request id is nonzero; and at most one is sent per frame. -/
theorem flow_control_exact (s : IsoTpState) (rsp_id : Nat) (data : List Nat) :
    (can_rx_packet s rsp_id data).2.fc =
      (if rsp_id = s.cur_rsp_id ∧ 2 ≤ data.length ∧
          hiNib (byteAt data 0) = 1 ∧ s.cur_req_id ≠ 0
       then [(s.cur_req_id, flow_control_data)]
       else []) ∧
    flow_control_data = [0x30, 0, 0, 0, 0, 0, 0, 0] := by
  refine ⟨?_, rfl⟩
  by_cases hid : rsp_id = s.cur_rsp_id
  · rw [can_rx_packet_eq s rsp_id data hid]
    show (can_rx_out s rsp_id data).fc = _
    rw [can_rx_out_fc, can_rx_classify_isFF]
    by_cases h2 : 2 ≤ data.length
    · by_cases h1 : hiNib (byteAt data 0) = 1
      · by_cases hreq : s.cur_req_id = 0
        · simp [h2, h1, hreq, hid]
        · simp [h2, h1, hreq, hid]
      · simp [h2, h1, hid]
    · simp [h2, hid]
  · rw [can_rx_packet_other_id s rsp_id data hid]
    simp [hid, RxOutput.empty]

/-! ### Valid ISO-TP frame patterns (for C1)

`sf_pattern` is a well-formed single frame: the declared length (low
nibble of byte 0) fits in the frame.  `collectOk T a q cfs` says the
consecutive frames `cfs`, arriving with `a` bytes already assembled toward
a total of `T` and `q` the next expected sequence nibble, carry the
in-order nibbles and complete the total exactly at the last frame.
`multi_pattern` is a first frame followed by such a run (no consecutive
frames when the first frame already carries the whole payload). -/

def sf_pattern (data : List Nat) : Bool :=
  decide (1 ≤ data.length) && decide (hiNib (byteAt data 0) = 0) &&
  decide (loNib (byteAt data 0) + 1 ≤ data.length)

def collectOk (T : Nat) (assembled : Nat) (q : Nat) : List (List Nat) → Bool
  | [] => false
  | cf :: rest =>
      decide (1 ≤ cf.length) && decide (hiNib (byteAt cf 0) = 2) &&
      decide (loNib (byteAt cf 0) = q) &&
      (if T ≤ assembled + (cf.length - 1) then rest.isEmpty
       else collectOk T (assembled + (cf.length - 1)) ((q + 1) % 16) rest)

def multi_pattern (ffdata : List Nat) (cfs : List (List Nat)) : Bool :=
  decide (2 ≤ ffdata.length) && decide (hiNib (byteAt ffdata 0) = 1) &&
  (if ffTotal ffdata ≤ ffdata.length - 2 then cfs.isEmpty
   else collectOk (ffTotal ffdata) (ffdata.length - 2) 1 cfs)

/-- The claim's expected payload: data bytes of the frames in arrival
order (first frame from byte 2, consecutive frames from byte 1),
truncated to the declared total. -/
def multi_payload (ffdata : List Nat) (cfs : List (List Nat)) : List Nat :=
  (ffdata.drop 2 ++ (cfs.map fun c => c.drop 1).flatten).take (ffTotal ffdata)

lemma can_rx_packet_sf (s : IsoTpState) (data : List Nat)
    (h : sf_pattern data = true) :
    (can_rx_packet s s.cur_rsp_id data).2.deliveries =
      [(s.cur_rsp_id, loNib (byteAt data 0),
        (data.drop 1).take (loNib (byteAt data 0)))] := by
  have h1 : 1 ≤ data.length := by
    simp [sf_pattern] at h
    omega
  have h0 : hiNib (byteAt data 0) = 0 := by
    simp [sf_pattern] at h
    exact h.1.2
  have hfit : loNib (byteAt data 0) + 1 ≤ data.length := by
    simp [sf_pattern] at h
    exact h.2
  rw [can_rx_packet_snd_deliveries_eq s s.cur_rsp_id data rfl,
      can_rx_out_deliveries, can_rx_accepted_sf s data (by omega) h0,
      can_rx_buf2_sf s data (by omega) h0, can_rx_classify_sf s data (by omega) h0]
  have hlen : ((data.drop 1).take (loNib (byteAt data 0))).length
      = loNib (byteAt data 0) := by
    simp
    omega
  simp [hlen]
  omega

lemma can_rx_packet_ff (s : IsoTpState) (data : List Nat)
    (h2 : 2 ≤ data.length) (hhi : hiNib (byteAt data 0) = 1) :
    (can_rx_packet s s.cur_rsp_id data).1 =
      { s with num_rx_bytes := ffTotal data,
               buf := (data.drop 2).take (ffTotal data), seq_num := 1 } ∧
    (can_rx_packet s s.cur_rsp_id data).2.deliveries =
      (if ffTotal data ≤ data.length - 2
       then [(s.cur_rsp_id, ffTotal data, (data.drop 2).take (ffTotal data))]
       else []) := by
  have hl : 1 < data.length := h2
  constructor
  · rw [can_rx_packet_fst_eq s s.cur_rsp_id data rfl,
        can_rx_classify_ff s data hl hhi, can_rx_buf2_ff s data hl hhi,
        can_rx_seq2_ff s data hl hhi]
    rfl
  · rw [can_rx_packet_snd_deliveries_eq s s.cur_rsp_id data rfl,
        can_rx_out_deliveries, can_rx_accepted_ff s data hl hhi,
        can_rx_buf2_ff s data hl hhi, can_rx_classify_ff s data hl hhi]
    by_cases hc : ffTotal data ≤ data.length - 2
    · have hfull : ((data.drop 2).take (ffTotal data)).length = ffTotal data := by
        simp
        omega
      rw [if_pos hc]
      simp only [ffTotal] at hfull ⊢
      simp [hfull]
    · have hc2 : data.length - 2 < ffTotal data := by omega
      have hpart : ¬ ((data.drop 2).take (ffTotal data)).length = ffTotal data := by
        simp
        unfold ffTotal at hc2
        omega
      rw [if_neg hc]
      simp only [ffTotal] at hpart ⊢
      simp [hpart]
      unfold ffTotal at hc2
      exact hc2

/-- Core induction for C1: from a collecting state (fewer bytes assembled
than expected), a valid run of consecutive frames produces exactly one
delivery, of the assembled bytes truncated to the expected total. -/
lemma can_rx_run_collect (cfs : List (List Nat)) :
    ∀ s : IsoTpState, s.buf.length < s.num_rx_bytes →
    collectOk s.num_rx_bytes s.buf.length s.seq_num cfs = true →
    (can_rx_run s (cfs.map fun c => (s.cur_rsp_id, c))).2.deliveries =
      [(s.cur_rsp_id, s.num_rx_bytes,
        (s.buf ++ (cfs.map fun c => c.drop 1).flatten).take s.num_rx_bytes)] := by
  induction cfs with
  | nil =>
      intro s hlt hc
      simp [collectOk] at hc
  | cons cf rest ih =>
      intro s hlt hc
      unfold collectOk at hc
      rw [Bool.and_eq_true, Bool.and_eq_true, Bool.and_eq_true] at hc
      obtain ⟨⟨⟨hcf1, hcf2⟩, hcf3⟩, hbranch⟩ := hc
      rw [decide_eq_true_iff] at hcf1 hcf2 hcf3
      have hl0 : 0 < cf.length := by omega
      simp only [List.map_cons, can_rx_run_cons_deliveries]
      rw [can_rx_packet_cf_deliveries s cf hl0 hcf2 hcf3,
          can_rx_packet_cf_fst s cf hl0 hcf2 hcf3]
      by_cases hdone : s.num_rx_bytes ≤ s.buf.length + (cf.length - 1)
      · rw [if_pos hdone] at hbranch
        have hrest : rest = [] := by simpa using hbranch
        subst hrest
        have hlen2 : (s.buf ++ (cf.drop 1).take (s.num_rx_bytes - s.buf.length)).length
            = s.num_rx_bytes := by
          simp
          omega
        rw [if_pos hlen2]
        have hble : s.buf.length ≤ s.num_rx_bytes := by omega
        simp only [List.map_nil, can_rx_run, List.map_cons, List.flatten_cons,
          List.flatten_nil, List.append_nil]
        rw [List.take_append_eq_append_take, List.take_of_length_le hble]
        simp [RxOutput.empty]
      · rw [if_neg hdone] at hbranch
        have hfull : (cf.drop 1).take (s.num_rx_bytes - s.buf.length) = cf.drop 1 := by
          apply List.take_of_length_le
          simp
          omega
        have hlen2 : ¬ (s.buf ++ (cf.drop 1).take (s.num_rx_bytes - s.buf.length)).length
            = s.num_rx_bytes := by
          rw [hfull]
          simp
          omega
        rw [if_neg hlen2, hfull]
        have hih := ih { s with buf := s.buf ++ cf.drop 1,
                                seq_num := (s.seq_num + 1) % 16 }
        have hlen3 : (s.buf ++ cf.drop 1).length = s.buf.length + (cf.length - 1) := by
          simp
        have hres := hih (by simp only [hlen3]; omega)
          (by simp only [hlen3]; exact hbranch)
        simp only at hres
        rw [hres]
        simp [List.append_assoc]

/-- C1: for every frame sequence whose sub-sequence on the expected
response id forms a valid single-frame pattern or a valid
first-frame-plus-in-order-consecutive-frames pattern (frames on other ids
are ignored), the reassembled payload delivered to the vehicle manager is
the concatenation of the frames' data bytes in arrival order (single
frame: bytes 1.. per the low nibble of byte 0; first frame: data from
byte 2; consecutive frames: bytes from index 1), truncated to the total
declared by the frame that opened the reassembly, and it is delivered
exactly once, at the frame that completes the total. -/
theorem can_rx_reassembly_correct (s : IsoTpState) (frames : List (Nat × List Nat)) :
    (∀ data, frames.filter (fun f => f.1 == s.cur_rsp_id) = [(s.cur_rsp_id, data)] →
      sf_pattern data = true →
      (can_rx_run s frames).2.deliveries =
        [(s.cur_rsp_id, loNib (byteAt data 0),
          (data.drop 1).take (loNib (byteAt data 0)))]) ∧
    (∀ ffdata cfs,
      frames.filter (fun f => f.1 == s.cur_rsp_id) =
        (s.cur_rsp_id, ffdata) :: cfs.map (fun c => (s.cur_rsp_id, c)) →
      multi_pattern ffdata cfs = true →
      (can_rx_run s frames).2.deliveries =
        [(s.cur_rsp_id, ffTotal ffdata, multi_payload ffdata cfs)]) := by
  constructor
  · intro data hfilter hsf
    rw [can_rx_run_filter, hfilter, can_rx_run_cons_deliveries,
        can_rx_packet_sf s data hsf]
    simp [can_rx_run, RxOutput.empty]
  · intro ffdata cfs hfilter hmp
    unfold multi_pattern at hmp
    rw [Bool.and_eq_true, Bool.and_eq_true] at hmp
    obtain ⟨⟨hl2, hhi⟩, hbranch⟩ := hmp
    rw [decide_eq_true_iff] at hl2 hhi
    obtain ⟨hst, hdel⟩ := can_rx_packet_ff s ffdata hl2 hhi
    rw [can_rx_run_filter, hfilter, can_rx_run_cons_deliveries, hst, hdel]
    by_cases hc : ffTotal ffdata ≤ ffdata.length - 2
    · rw [if_pos hc] at hbranch
      have hcfs : cfs = [] := by simpa using hbranch
      subst hcfs
      rw [if_pos hc]
      simp [can_rx_run, RxOutput.empty, multi_payload]
    · rw [if_neg hc] at hbranch
      rw [if_neg hc]
      have hfull : (ffdata.drop 2).take (ffTotal ffdata) = ffdata.drop 2 := by
        apply List.take_of_length_le
        simp
        omega
      have hcoll := can_rx_run_collect cfs
        { s with num_rx_bytes := ffTotal ffdata,
                 buf := (ffdata.drop 2).take (ffTotal ffdata), seq_num := 1 }
      rw [hfull] at hcoll
      have hlen : (ffdata.drop 2).length = ffdata.length - 2 := by simp
      have hres := hcoll (by simp only [hlen]; omega)
        (by simp only [hlen]; exact hbranch)
      simp only at hres
      rw [hfull, hres]
      simp [multi_payload, hfull, List.nil_append]

/-- Witness for C1: a first frame declaring 10 bytes, a noise frame on an
unrelated id, and one consecutive frame with sequence nibble 1 reassemble
to the 10 payload bytes, delivered once. -/
theorem can_rx_reassembly_correct_witness :
    (can_rx_run ⟨0x79B, 0x7BB, 0, [], 0⟩
        [(0x7BB, [0x10, 0x0A, 1, 2, 3, 4, 5, 6]), (0x123, [0x99]),
         (0x7BB, [0x21, 7, 8, 9, 10, 11, 12, 13])]).2.deliveries =
      [(0x7BB, 10, [1, 2, 3, 4, 5, 6, 7, 8, 9, 10])] := by
  have h := (can_rx_reassembly_correct ⟨0x79B, 0x7BB, 0, [], 0⟩
      [(0x7BB, [0x10, 0x0A, 1, 2, 3, 4, 5, 6]), (0x123, [0x99]),
       (0x7BB, [0x21, 7, 8, 9, 10, 11, 12, 13])]).2
      [0x10, 0x0A, 1, 2, 3, 4, 5, 6] [[0x21, 7, 8, 9, 10, 11, 12, 13]]
      (by decide) (by decide)
  rw [h]
  decide

/-- C3 (code evaluation): after a single-frame delivery the code leaves
`seq_num = (0xFF + 1) & 0x0F = 0`, so a stray consecutive frame with low
nibble 0 on the same response id is accepted, the (already full) buffer is
delivered a second time and `fcn_response_complete` is called a second
time — two deliveries and two completes for this frame pair, where the
spec mandates exactly one. -/
theorem can_rx_single_then_stray_cf_redelivers :
    (can_rx_run ⟨0x797, 0x79A, 0, [], 0⟩
        [(0x79A, [0x02, 0xAA, 0xBB, 0x00, 0x00, 0x00, 0x00, 0x00]),
         (0x79A, [0x20, 0x00, 0x00, 0x00, 0x00, 0x00, 0x00, 0x00])]).2 =
      ⟨[(0x79A, 2, [0xAA, 0xBB]), (0x79A, 2, [0xAA, 0xBB])], [], 2⟩ := by
  decide

/-! ## Vehicle decoder evaluator (`vehicle_vw_meb.h`, `_vw_meb_eval`)

Module statics `req_in_process`, `req_timeout`, `saw_error`,
`saw_response`, `req_index` and the compiled request list
(`req_listP[0..num_req_entries)`) form the state; `num_req_entries > 0`
is `req_list ≠ []`.  The result of `can_tx_packet` is the `tx_ok`
parameter; the issued request (if any) is returned alongside the new
state. -/

structure EvalState where
  req_in_process : Bool
  req_timeout : Bool
  saw_error : Bool
  saw_response : Bool
  req_index : Nat
  req_list : List can_request_t
  deriving Repr, DecidableEq

def dummy_request : can_request_t := ⟨0, 0, 0, []⟩

/-- First half of `_vw_meb_eval`: consume a pending response completion,
error flag or timeout flag and clear the in-flight marker. -/
def vw_meb_eval_handle (s : EvalState) : EvalState :=
  if s.req_in_process then
    if s.saw_error || s.saw_response || s.req_timeout then
      if s.req_timeout then { s with req_in_process := false, req_timeout := false }
      else { s with req_in_process := false }
    else s
  else s

/-- `_vw_meb_eval` (identical in `_leaf_ze1_eval`): after handling flags,
if no request is in flight and the compiled list is nonempty, transmit the
descriptor at the round-robin cursor and advance the cursor, wrapping at
the list end; `saw_error` records a failed transmission. -/
def vw_meb_eval (s : EvalState) (tx_ok : Bool) : EvalState × Option can_request_t :=
  let s1 := vw_meb_eval_handle s
  if !s1.req_in_process && !s1.req_list.isEmpty then
    (⟨true, false, !tx_ok, false,
      if s1.req_list.length ≤ s1.req_index + 1 then 0 else s1.req_index + 1,
      s1.req_list⟩,
     some (s1.req_list.getD s1.req_index dummy_request))
  else (s1, none)

/-- C4: request serialisation of the decoder evaluator.  (1) While a
request is in flight and neither the response, error nor timeout flag is
set, `evaluate` issues nothing and leaves the state unchanged.  (2) When
idle with a nonempty compiled list it issues exactly the descriptor at the
round-robin cursor, marks a request in flight, and advances the cursor,
wrapping at the list end.  (3) When idle with an empty list it issues
nothing.  (4) If a request was in flight and this call issued a new one,
then the response, error or timeout flag had been set — the in-flight
marker is cleared only by observing one of those flags, so at most one
request is outstanding at any time. -/
theorem vw_meb_eval_serialises (s : EvalState) (tx_ok : Bool) :
    (s.req_in_process = true → s.saw_error = false → s.saw_response = false →
      s.req_timeout = false →
      (vw_meb_eval s tx_ok).2 = none ∧ (vw_meb_eval s tx_ok).1 = s) ∧
    (s.req_in_process = false → s.req_list ≠ [] →
      (vw_meb_eval s tx_ok).2 = some (s.req_list.getD s.req_index dummy_request) ∧
      (vw_meb_eval s tx_ok).1.req_in_process = true ∧
      (vw_meb_eval s tx_ok).1.req_index =
        (if s.req_list.length ≤ s.req_index + 1 then 0 else s.req_index + 1) ∧
      (vw_meb_eval s tx_ok).1.req_list = s.req_list) ∧
    (s.req_in_process = false → s.req_list = [] →
      (vw_meb_eval s tx_ok).2 = none ∧ (vw_meb_eval s tx_ok).1 = s) ∧
    (s.req_in_process = true → (vw_meb_eval s tx_ok).2 ≠ none →
      s.saw_error = true ∨ s.saw_response = true ∨ s.req_timeout = true) := by
  refine ⟨fun hp he hr ht => ?_, fun hp hl => ?_, fun hp hl => ?_, fun hp hiss => ?_⟩
  · have h1 : vw_meb_eval_handle s = s := by
      unfold vw_meb_eval_handle
      rw [if_pos hp, if_neg (by simp [he, hr, ht])]
    unfold vw_meb_eval
    rw [h1, if_neg (by simp [hp])]
    exact ⟨rfl, rfl⟩
  · have h1 : vw_meb_eval_handle s = s := by
      unfold vw_meb_eval_handle
      rw [if_neg (by simp [hp])]
    unfold vw_meb_eval
    rw [h1, if_pos (by simp [hp, hl])]
    exact ⟨rfl, rfl, rfl, rfl⟩
  · have h1 : vw_meb_eval_handle s = s := by
      unfold vw_meb_eval_handle
      rw [if_neg (by simp [hp])]
    unfold vw_meb_eval
    rw [h1, if_neg (by simp [hl])]
    exact ⟨rfl, rfl⟩
  · by_cases hfl : s.saw_error = true ∨ s.saw_response = true ∨ s.req_timeout = true
    · exact hfl
    · push_neg at hfl
      simp only [ne_eq, Bool.not_eq_true] at hfl
      exfalso
      apply hiss
      have h1 : vw_meb_eval_handle s = s := by
        unfold vw_meb_eval_handle
        rw [if_pos hp, if_neg (by simp [hfl.1, hfl.2.1, hfl.2.2])]
      unfold vw_meb_eval
      rw [h1, if_neg (by simp [hp])]

/-- Witness for C4: an idle evaluator with a one-entry compiled list
issues exactly that entry and wraps the cursor back to 0. -/
theorem vw_meb_eval_serialises_witness :
    (vw_meb_eval ⟨false, false, false, false, 0, [leaf_req_12v_batt_v]⟩ true).2 =
      some leaf_req_12v_batt_v ∧
    (vw_meb_eval ⟨false, false, false, false, 0, [leaf_req_12v_batt_v]⟩ true).1.req_index = 0 := by
  have h := (vw_meb_eval_serialises
      ⟨false, false, false, false, 0, [leaf_req_12v_batt_v]⟩ true).2.1
      rfl (by decide)
  exact ⟨h.1, by rw [h.2.2.1]; decide⟩

/-! ## Data broker (`data_broker.c`)

`DB_MAX_ITEMS = 32`.  The handler table is modelled by a presence
predicate (a registered callback is identified by its index), the two-row
value array `gui_item_value_list[0/1]` by `val_latest`/`val_prev`, and the
32-bit `gui_item_updated_mask` by a predicate on indices.  Values are
modelled as rationals; the averaging `(latest + previous) / 2.0` is exact
for the inputs considered.  `db_gui_eval` returns the list of
(index, value) subscriber invocations in index order and clears the
updated flags in bulk. -/

def DB_MAX_ITEMS : Nat := 32

structure DbState where
  gui_item_fast_average : Bool
  handlers : Nat → Bool
  val_latest : Nat → ℚ
  val_prev : Nat → ℚ
  updated : Nat → Bool

/-- `_db_mask_to_index`: position of the first set bit from the LSB,
scanning positions `0..DB_MAX_ITEMS-1` (`remaining` counts the positions
left to scan, so the loop is structural); `-1` if none. -/
def db_mask_to_index_aux (mask : Nat) : Nat → Nat → Int
  | 0, _ => -1
  | remaining + 1, n =>
      if mask.testBit n then Int.ofNat n
      else db_mask_to_index_aux mask remaining (n + 1)

def db_mask_to_index (mask : Nat) : Int := db_mask_to_index_aux mask DB_MAX_ITEMS 0

/-- `db_init`: no handlers, latest values zeroed (previous values are in
zero-initialised static storage), no updated flags, fast-average off. -/
def db_init_state : DbState :=
  ⟨false, fun _ => false, fun _ => 0, fun _ => 0, fun _ => false⟩

/-- `db_enable_fast_average(bool en)` from `data_broker.c`: the body is
`gui_item_fast_average = true;` — it does not read `en`. -/
def db_enable_fast_average (s : DbState) (en : Bool) : DbState :=
  { s with gui_item_fast_average := true }

/-- `db_register_gui_callback`: install a subscriber at the first set bit
of `mask`, clear that entry's updated flag and zero its latest value. -/
def db_register_gui_callback (s : DbState) (mask : Nat) : DbState :=
  let n := db_mask_to_index mask
  if 0 ≤ n then
    let i := n.toNat
    { s with handlers := fun j => if j = i then true else s.handlers j,
             updated := fun j => if j = i then false else s.updated j,
             val_latest := fun j => if j = i then 0 else s.val_latest j }
  else s

/-- `db_set_data_item_value`: under the mutex, mark the entry updated,
save the previous value and store the new one. -/
def db_set_data_item_value (s : DbState) (mask : Nat) (val : ℚ) : DbState :=
  let n := db_mask_to_index mask
  if 0 ≤ n then
    let i := n.toNat
    { s with updated := fun j => if j = i then true else s.updated j,
             val_prev := fun j => if j = i then s.val_latest i else s.val_prev j,
             val_latest := fun j => if j = i then val else s.val_latest j }
  else s

/-- `db_gui_eval`: for each updated entry with a registered handler,
invoke it with the latest value, or with `(latest + previous) / 2` when
fast-averaging is enabled; finally clear all updated flags. -/
def db_gui_eval (s : DbState) : DbState × List (Nat × ℚ) :=
  ({ s with updated := fun _ => false },
   (List.range DB_MAX_ITEMS).filterMap fun i =>
     if s.updated i && s.handlers i then
       some (i, if s.gui_item_fast_average
                then (s.val_latest i + s.val_prev i) / 2
                else s.val_latest i)
     else none)

/-- C5 (code evaluation): `db_enable_fast_average` ignores its argument —
after `db_enable_fast_average(false)` the broker still averages.  With a
subscriber on `DB_ITEM_HV_BATT_V` (bit 0), `set_value(360)` then
`set_value(362)` then drain invokes the subscriber with `361` (the
average), where the claim requires `362` (the latest value) when
fast-averaging was requested off. -/
theorem db_enable_fast_average_ignores_en :
    (db_gui_eval (db_set_data_item_value (db_set_data_item_value
        (db_enable_fast_average (db_register_gui_callback db_init_state 0x1) false)
        0x1 360) 0x1 362)).2 = [(0, ((362 : ℚ) + 360) / 2)] ∧
    ((362 : ℚ) + 360) / 2 = 361 ∧ ((362 : ℚ) + 360) / 2 ≠ 362 := by
  refine ⟨rfl, by norm_num, by norm_num⟩

/-! ## ELM327 driver (`can_driver_elm327.c`)

State is the module statics `op_state`, `prev_header_size`,
`prev_req_id`, `prev_rsp_id`, `elm327_is_v15`, `can_500k`.  The blocking
`_can_driver_elm327_tx_string` is modelled by the resolution of its wait:
the asynchronous parser marks the exchange idle (`complete`) or error
(`failed`), the interface refuses the line (`lineSendFail`), or the
`10 × req_timeout_ms` countdown expires (`expired`).  A transmission run
(`TxRun`) records the state, the command lines sent, the error codes
signalled upward through `can_if_error`, the number of lines sent, and
whether the function would still be executing (no early `return false`
taken yet). -/

def OP_ST_DISCONNECTED : Nat := 0
def OP_ST_INIT_ELM327 : Nat := 1
def OP_ST_CONNECTED : Nat := 2

def HEADER_SIZE_UNDEF : Nat := 0
def HEADER_SIZE_11 : Nat := 1
def HEADER_SIZE_29 : Nat := 2

def CAN_ERRNO_TIMEOUT : Nat := 1

structure ElmState where
  op_state : Nat
  prev_header_size : Nat
  prev_req_id : Nat
  prev_rsp_id : Nat
  elm327_is_v15 : Bool
  can_500k : Bool
  deriving Repr, DecidableEq

/-- `_can_driver_elm327_init` sets `timeout_msec = req_timeout * 10` to
accommodate connection plus controller latency. -/
def elm327_timeout_msec (req_timeout : Nat) : Nat := req_timeout * 10

inductive TxRes
  | complete
  | failed
  | expired
  | lineSendFail
  deriving Repr, DecidableEq

/-- Observable result of `_can_driver_elm327_tx_string` for each wait
resolution: `(return value, error codes passed to can_if_error)`.  On
timeout the function calls `can_if_error(CAN_ERRNO_TIMEOUT)` and then
returns `success = true`; only the error resolution (the parser saw `?`,
`NO DATA`, or a non-hex line) returns false. -/
def elm327_tx_string_result : TxRes → Bool × List Nat
  | .complete => (true, [])
  | .failed => (false, [])
  | .expired => (true, [CAN_ERRNO_TIMEOUT])
  | .lineSendFail => (false, [])

inductive ElmCmd
  | attp (n : Nat)
  | atcp (hi : Nat)
  | atsh (id : Nat)
  | atfcsh (id : Nat)
  | atcra (id : Nat)
  | payload (hexchars : List Nat)
  deriving Repr, DecidableEq

structure TxRun where
  s : ElmState
  cmds : List ElmCmd
  errs : List Nat
  k : Nat
  ok : Bool
  deriving Repr, DecidableEq

/-- One `_can_driver_elm327_tx_string` call inside `tx_packet`: a no-op
once an early `return false` has been taken (`ok = false`), otherwise the
line is sent and the wait's resolution (`res k` for the k-th line)
determines the return value and any timeout signalled upward. -/
def sendLine (res : Nat → TxRes) (r : TxRun) (c : ElmCmd) : TxRun :=
  if r.ok then
    { r with cmds := r.cmds ++ [c],
             errs := r.errs ++ (elm327_tx_string_result (res r.k)).2,
             k := r.k + 1,
             ok := (elm327_tx_string_result (res r.k)).1 }
  else r

def nibble_2_ascii (nibble : Nat) : Nat :=
  if nibble % 16 ≤ 9 then 48 + nibble % 16 else 65 + (nibble % 16 - 10)

/-- The payload line: two hex characters per byte. -/
def hex_encode : List Nat → List Nat
  | [] => []
  | b :: rest => nibble_2_ascii (b / 16) :: nibble_2_ascii (b % 16) :: hex_encode rest

/-- v1.5 quirk: drop trailing zero bytes from the payload. -/
def strip_trailing_zeros (l : List Nat) : List Nat :=
  (l.reverse.dropWhile fun b => b == 0).reverse

/-- `ATTPn` number: CAN 11-bit/500k → 6, 11-bit/250k → 8,
29-bit/500k → 7, 29-bit/250k → 9. -/
def attp_num (header_size : Nat) (is500k : Bool) : Nat :=
  if header_size = HEADER_SIZE_11 then (if is500k then 6 else 8)
  else (if is500k then 7 else 9)

/-- Protocol-switch stage of `_can_driver_elm327_tx_packet`: when the
header bit width differs from the previous packet's (or none was sent
yet), record the new width and send `ATTPn`. -/
def elm327_tx_header_protocol (res : Nat → TxRes) (r : TxRun) (req_id : Nat) : TxRun :=
  let cur_header_size := if req_id > 0x7FF then HEADER_SIZE_29 else HEADER_SIZE_11
  if r.s.prev_header_size = HEADER_SIZE_UNDEF ∨
      r.s.prev_header_size ≠ cur_header_size then
    sendLine res { r with s := { r.s with prev_header_size := cur_header_size } }
      (.attp (attp_num cur_header_size r.s.can_500k))
  else r

/-- Request-header stage: when the request id changed, send `ATSH` (with
the v1.5 quirk, `ATCP` first for the top byte of a 29-bit id and only the
low 24 bits in `ATSH`) and a matching `ATFCSH`; the cached id is updated
only after both lines succeeded. -/
def elm327_tx_header_ids (res : Nat → TxRes) (r : TxRun) (req_id : Nat) : TxRun :=
  let cur_header_size := if req_id > 0x7FF then HEADER_SIZE_29 else HEADER_SIZE_11
  if req_id ≠ r.s.prev_req_id then
    let ra := if r.s.elm327_is_v15 ∧ cur_header_size = HEADER_SIZE_29
              then sendLine res r (.atcp (req_id / 2 ^ 24))
              else r
    let rb := if r.s.elm327_is_v15
              then sendLine res ra (.atsh (req_id % 2 ^ 24))
              else sendLine res ra (.atsh req_id)
    let rc := sendLine res rb (.atfcsh req_id)
    if rc.ok then { rc with s := { rc.s with prev_req_id := req_id } } else rc
  else r

/-- Response-filter stage: when the response id changed, send `ATCRA`;
the cached id is updated only after the line succeeded. -/
def elm327_tx_rsp_filter (res : Nat → TxRes) (r : TxRun) (rsp_id : Nat) : TxRun :=
  if rsp_id ≠ r.s.prev_rsp_id then
    let rc := sendLine res r (.atcra rsp_id)
    if rc.ok then { rc with s := { rc.s with prev_rsp_id := rsp_id } } else rc
  else r

/-- Payload stage: hex-encode the request (after the v1.5 trailing-zero
strip) and send it as a single line. -/
def elm327_tx_payload (res : Nat → TxRes) (r : TxRun) (data : List Nat) : TxRun :=
  let data2 := if r.s.elm327_is_v15 then strip_trailing_zeros data else data
  sendLine res r (.payload (hex_encode data2))

/-- `_can_driver_elm327_tx_packet`: refuse when not connected, then run
the four stages in order. -/
def can_driver_elm327_tx_packet (s : ElmState) (req_id rsp_id : Nat)
    (data : List Nat) (res : Nat → TxRes) : TxRun :=
  if s.op_state ≠ OP_ST_CONNECTED then ⟨s, [], [], 0, false⟩
  else
    elm327_tx_payload res
      (elm327_tx_rsp_filter res
        (elm327_tx_header_ids res
          (elm327_tx_header_protocol res ⟨s, [], [], 0, true⟩ req_id) req_id)
        rsp_id)
      data

/-- `can_driver_elm327_set_connected`: a rising link triggers controller
initialisation only from the disconnected state; a falling link always
returns to disconnected. -/
def can_driver_elm327_set_connected (s : ElmState) (connected : Bool) : ElmState :=
  if connected then
    if s.op_state = OP_ST_DISCONNECTED then { s with op_state := OP_ST_INIT_ELM327 }
    else s
  else { s with op_state := OP_ST_DISCONNECTED }

/-- The initialisation command sequence sent by the driver task on every
pass through `OP_ST_INIT_ELM327`. -/
def elm327_init_cmd : List String :=
  ["ATZ", "ATE0", "ATCAF0", "ATCFC1", "ATM0", "ATL0", "ATH0", "ATS1",
   "ATST7D", "ATFCSH710", "ATFCSD300000", "ATFCSM1"]

/-- One successful pass of the `_can_driver_elm327_task` initialisation
loop: all twelve commands are sent and acknowledged, the state becomes
connected and the v1.5 quirk flag is latched from the announced version.
The cached `prev_req_id`/`prev_rsp_id`/`prev_header_size` are not
touched anywhere in this path (they are assigned only inside
`_can_driver_elm327_tx_packet`). -/
def elm327_task_init_pass (s : ElmState) (version_is_15 : Bool) :
    ElmState × List String :=
  ({ s with op_state := OP_ST_CONNECTED, elm327_is_v15 := version_is_15 },
   elm327_init_cmd)

/-! ### Transmission-stage lemmas

`res_ok res` holds for resolution oracles under which every line send
returns true (every line completes or times out — never an adapter
error).  Under such an oracle the four stages of `tx_packet` run to the
end and cache exactly the transmitted ids. -/

def res_ok (res : Nat → TxRes) : Prop :=
  ∀ k, (elm327_tx_string_result (res k)).1 = true

lemma ElmState_set_header_self (t : ElmState) (v : Nat)
    (h : t.prev_header_size = v) :
    ({ t with prev_header_size := v } : ElmState) = t := by
  cases t
  simp_all

lemma ElmState_set_req_self (t : ElmState) (v : Nat) (h : t.prev_req_id = v) :
    ({ t with prev_req_id := v } : ElmState) = t := by
  cases t
  simp_all

lemma ElmState_set_rsp_self (t : ElmState) (v : Nat) (h : t.prev_rsp_id = v) :
    ({ t with prev_rsp_id := v } : ElmState) = t := by
  cases t
  simp_all

lemma sendLine_ok_s (res : Nat → TxRes) (hres : res_ok res) (r : TxRun)
    (c : ElmCmd) (hok : r.ok = true) :
    (sendLine res r c).ok = true ∧ (sendLine res r c).s = r.s := by
  unfold sendLine
  rw [if_pos hok]
  exact ⟨by simp [hres r.k], rfl⟩

lemma tx_header_protocol_spec (res : Nat → TxRes) (hres : res_ok res)
    (r : TxRun) (req_id : Nat) (hok : r.ok = true) :
    (elm327_tx_header_protocol res r req_id).s =
      { r.s with prev_header_size :=
          if req_id > 0x7FF then HEADER_SIZE_29 else HEADER_SIZE_11 } ∧
    (elm327_tx_header_protocol res r req_id).ok = true := by
  simp only [elm327_tx_header_protocol]
  by_cases hc : r.s.prev_header_size = HEADER_SIZE_UNDEF ∨
      r.s.prev_header_size ≠ (if req_id > 0x7FF then HEADER_SIZE_29 else HEADER_SIZE_11)
  · rw [if_pos hc]
    obtain ⟨h1, h2⟩ := sendLine_ok_s res hres
      { r with s := { r.s with prev_header_size :=
          if req_id > 0x7FF then HEADER_SIZE_29 else HEADER_SIZE_11 } }
      (.attp (attp_num (if req_id > 0x7FF then HEADER_SIZE_29 else HEADER_SIZE_11)
        r.s.can_500k)) hok
    exact ⟨h2, h1⟩
  · rw [if_neg hc]
    push_neg at hc
    exact ⟨(ElmState_set_header_self r.s _ hc.2).symm, hok⟩

lemma tx_header_ids_spec (res : Nat → TxRes) (hres : res_ok res)
    (r : TxRun) (req_id : Nat) (hok : r.ok = true) :
    (elm327_tx_header_ids res r req_id).s = { r.s with prev_req_id := req_id } ∧
    (elm327_tx_header_ids res r req_id).ok = true := by
  simp only [elm327_tx_header_ids]
  by_cases hc : req_id ≠ r.s.prev_req_id
  · rw [if_pos hc]
    by_cases hv : r.s.elm327_is_v15 = true
    · by_cases h29 : (if req_id > 0x7FF then HEADER_SIZE_29 else HEADER_SIZE_11) =
          HEADER_SIZE_29
      · rw [if_pos (And.intro hv h29), if_pos hv]
        obtain ⟨ha1, ha2⟩ := sendLine_ok_s res hres r (.atcp (req_id / 2 ^ 24)) hok
        obtain ⟨hb1, hb2⟩ := sendLine_ok_s res hres _ (.atsh (req_id % 2 ^ 24)) ha1
        obtain ⟨hd1, hd2⟩ := sendLine_ok_s res hres _ (.atfcsh req_id) hb1
        rw [if_pos hd1]
        refine ⟨?_, hd1⟩
        rw [hd2, hb2, ha2]
      · have hno : ¬ (r.s.elm327_is_v15 = true ∧
            (if req_id > 0x7FF then HEADER_SIZE_29 else HEADER_SIZE_11) =
              HEADER_SIZE_29) := fun hand => h29 hand.2
        rw [if_neg hno, if_pos hv]
        obtain ⟨hb1, hb2⟩ := sendLine_ok_s res hres r (.atsh (req_id % 2 ^ 24)) hok
        obtain ⟨hd1, hd2⟩ := sendLine_ok_s res hres _ (.atfcsh req_id) hb1
        rw [if_pos hd1]
        refine ⟨?_, hd1⟩
        rw [hd2, hb2]
    · have hno : ¬ (r.s.elm327_is_v15 = true ∧
          (if req_id > 0x7FF then HEADER_SIZE_29 else HEADER_SIZE_11) =
            HEADER_SIZE_29) := fun hand => hv hand.1
      rw [if_neg hno, if_neg hv]
      obtain ⟨hb1, hb2⟩ := sendLine_ok_s res hres r (.atsh req_id) hok
      obtain ⟨hd1, hd2⟩ := sendLine_ok_s res hres _ (.atfcsh req_id) hb1
      rw [if_pos hd1]
      refine ⟨?_, hd1⟩
      rw [hd2, hb2]
  · rw [if_neg hc]
    push_neg at hc
    exact ⟨(ElmState_set_req_self r.s _ hc.symm).symm, hok⟩

lemma tx_rsp_filter_spec (res : Nat → TxRes) (hres : res_ok res)
    (r : TxRun) (rsp_id : Nat) (hok : r.ok = true) :
    (elm327_tx_rsp_filter res r rsp_id).s = { r.s with prev_rsp_id := rsp_id } ∧
    (elm327_tx_rsp_filter res r rsp_id).ok = true := by
  simp only [elm327_tx_rsp_filter]
  by_cases hc : rsp_id ≠ r.s.prev_rsp_id
  · rw [if_pos hc]
    obtain ⟨h1, h2⟩ := sendLine_ok_s res hres r (.atcra rsp_id) hok
    rw [if_pos h1]
    refine ⟨?_, h1⟩
    rw [h2]
  · rw [if_neg hc]
    push_neg at hc
    exact ⟨(ElmState_set_rsp_self r.s _ hc.symm).symm, hok⟩

lemma tx_payload_spec (res : Nat → TxRes) (hres : res_ok res)
    (r : TxRun) (data : List Nat) (hok : r.ok = true) :
    (elm327_tx_payload res r data).s = r.s ∧
    (elm327_tx_payload res r data).ok = true ∧
    (elm327_tx_payload res r data).errs =
      r.errs ++ (elm327_tx_string_result (res r.k)).2 := by
  unfold elm327_tx_payload sendLine
  rw [if_pos hok]
  exact ⟨rfl, by simp [hres r.k], rfl⟩

/-- Under a resolution oracle where every line send returns true, a
connected `tx_packet` reaches the end, returns true, and caches the
transmitted header width, request id and response id. -/
lemma elm327_tx_packet_spec (s : ElmState) (req_id rsp_id : Nat)
    (data : List Nat) (res : Nat → TxRes) (h : s.op_state = OP_ST_CONNECTED)
    (hres : res_ok res) :
    (can_driver_elm327_tx_packet s req_id rsp_id data res).s =
      { s with prev_header_size :=
                 (if req_id > 0x7FF then HEADER_SIZE_29 else HEADER_SIZE_11),
               prev_req_id := req_id, prev_rsp_id := rsp_id } ∧
    (can_driver_elm327_tx_packet s req_id rsp_id data res).ok = true := by
  unfold can_driver_elm327_tx_packet
  rw [if_neg (by simp [h])]
  obtain ⟨h1s, h1ok⟩ := tx_header_protocol_spec res hres ⟨s, [], [], 0, true⟩ req_id rfl
  obtain ⟨h2s, h2ok⟩ := tx_header_ids_spec res hres
    (elm327_tx_header_protocol res ⟨s, [], [], 0, true⟩ req_id) req_id h1ok
  obtain ⟨h3s, h3ok⟩ := tx_rsp_filter_spec res hres
    (elm327_tx_header_ids res
      (elm327_tx_header_protocol res ⟨s, [], [], 0, true⟩ req_id) req_id)
    rsp_id h2ok
  obtain ⟨h4s, h4ok, -⟩ := tx_payload_spec res hres
    (elm327_tx_rsp_filter res
      (elm327_tx_header_ids res
        (elm327_tx_header_protocol res ⟨s, [], [], 0, true⟩ req_id) req_id)
      rsp_id) data h3ok
  refine ⟨?_, h4ok⟩
  rw [h4s, h3s, h2s, h1s]

/-- C8: when two successive requests are transmitted with the same
request id and the same response id (hence the same header bit width)
while connected, the second transmission emits only the hex-encoded
payload line — no ATTP, ATSH, ATCP, ATFCSH or ATCRA command line. -/
theorem elm327_repeat_request_payload_only (s : ElmState) (req_id rsp_id : Nat)
    (d1 d2 : List Nat) (h : s.op_state = OP_ST_CONNECTED) :
    (can_driver_elm327_tx_packet
        (can_driver_elm327_tx_packet s req_id rsp_id d1 (fun _ => TxRes.complete)).s
        req_id rsp_id d2 (fun _ => TxRes.complete)).cmds =
      [ElmCmd.payload (hex_encode
        (if s.elm327_is_v15 then strip_trailing_zeros d2 else d2))] := by
  have hres : res_ok (fun _ => TxRes.complete) := fun k => rfl
  obtain ⟨hs, -⟩ :=
    elm327_tx_packet_spec s req_id rsp_id d1 (fun _ => TxRes.complete) h hres
  rw [hs]
  by_cases h29 : req_id > 0x7FF
  · simp [can_driver_elm327_tx_packet, elm327_tx_header_protocol,
      elm327_tx_header_ids, elm327_tx_rsp_filter, elm327_tx_payload, sendLine,
      h, h29, HEADER_SIZE_29, HEADER_SIZE_11, HEADER_SIZE_UNDEF, OP_ST_CONNECTED]
  · simp [can_driver_elm327_tx_packet, elm327_tx_header_protocol,
      elm327_tx_header_ids, elm327_tx_rsp_filter, elm327_tx_payload, sendLine,
      h, h29, HEADER_SIZE_29, HEADER_SIZE_11, HEADER_SIZE_UNDEF, OP_ST_CONNECTED]

/-- Witness for C8: repeating the VW MEB 12 V battery request emits only
the payload line the second time. -/
theorem elm327_repeat_request_payload_only_witness :
    (can_driver_elm327_tx_packet
        (can_driver_elm327_tx_packet ⟨2, 0, 0, 0, false, true⟩ 0x710 0x77A
          [0x03, 0x22, 0x2A, 0xF7, 0, 0, 0, 0] (fun _ => TxRes.complete)).s
        0x710 0x77A [0x03, 0x22, 0x2A, 0xF7, 0, 0, 0, 0]
        (fun _ => TxRes.complete)).cmds =
      [ElmCmd.payload (hex_encode [0x03, 0x22, 0x2A, 0xF7, 0, 0, 0, 0])] := by
  have h := elm327_repeat_request_payload_only ⟨2, 0, 0, 0, false, true⟩
      0x710 0x77A [0x03, 0x22, 0x2A, 0xF7, 0, 0, 0, 0]
      [0x03, 0x22, 0x2A, 0xF7, 0, 0, 0, 0] rfl
  simpa using h

/-- C9: `_can_driver_elm327_tx_string`'s blocking wait maps each
resolution to its observable result — on countdown expiry
(`10 × req_timeout_ms`, see `elm327_timeout_msec`) the coarse timeout
error is signalled upward through `can_if_error` and the send returns
`true`; only adapter error responses return `false`.  Consequently a
connected `tx_packet` whose every line times out still returns `true`,
with the timeout visible only through the signalled
`CAN_ERRNO_TIMEOUT`. -/
theorem elm327_timeout_reports_success (s : ElmState) (req_id rsp_id : Nat)
    (data : List Nat) (h : s.op_state = OP_ST_CONNECTED) :
    elm327_tx_string_result TxRes.expired = (true, [CAN_ERRNO_TIMEOUT]) ∧
    elm327_tx_string_result TxRes.failed = (false, []) ∧
    (∀ t, elm327_timeout_msec t = t * 10) ∧
    (can_driver_elm327_tx_packet s req_id rsp_id data
      (fun _ => TxRes.expired)).ok = true ∧
    CAN_ERRNO_TIMEOUT ∈ (can_driver_elm327_tx_packet s req_id rsp_id data
      (fun _ => TxRes.expired)).errs := by
  have hres : res_ok (fun _ => TxRes.expired) := fun k => rfl
  refine ⟨rfl, rfl, fun t => rfl,
    (elm327_tx_packet_spec s req_id rsp_id data _ h hres).2, ?_⟩
  unfold can_driver_elm327_tx_packet
  rw [if_neg (by simp [h])]
  obtain ⟨-, h1ok⟩ := tx_header_protocol_spec _ hres ⟨s, [], [], 0, true⟩ req_id rfl
  obtain ⟨-, h2ok⟩ := tx_header_ids_spec _ hres
    (elm327_tx_header_protocol (fun _ => TxRes.expired) ⟨s, [], [], 0, true⟩ req_id)
    req_id h1ok
  obtain ⟨-, h3ok⟩ := tx_rsp_filter_spec _ hres
    (elm327_tx_header_ids (fun _ => TxRes.expired)
      (elm327_tx_header_protocol (fun _ => TxRes.expired) ⟨s, [], [], 0, true⟩ req_id)
      req_id) rsp_id h2ok
  obtain ⟨-, -, h4errs⟩ := tx_payload_spec _ hres
    (elm327_tx_rsp_filter (fun _ => TxRes.expired)
      (elm327_tx_header_ids (fun _ => TxRes.expired)
        (elm327_tx_header_protocol (fun _ => TxRes.expired) ⟨s, [], [], 0, true⟩ req_id)
        req_id) rsp_id) data h3ok
  rw [h4errs]
  simp [elm327_tx_string_result]

/-- Witness for C9: a timed-out request on a fresh connected driver
returns true and signals `CAN_ERRNO_TIMEOUT`. -/
theorem elm327_timeout_reports_success_witness :
    (can_driver_elm327_tx_packet ⟨2, 0, 0, 0, false, true⟩ 0x797 0x79A
      [0x03, 0x22, 0x11, 0x03, 0, 0, 0, 0] (fun _ => TxRes.expired)).ok = true ∧
    CAN_ERRNO_TIMEOUT ∈ (can_driver_elm327_tx_packet ⟨2, 0, 0, 0, false, true⟩
      0x797 0x79A [0x03, 0x22, 0x11, 0x03, 0, 0, 0, 0]
      (fun _ => TxRes.expired)).errs := by
  have h := elm327_timeout_reports_success ⟨2, 0, 0, 0, false, true⟩ 0x797 0x79A
      [0x03, 0x22, 0x11, 0x03, 0, 0, 0, 0] rfl
  exact ⟨h.2.2.2.1, h.2.2.2.2⟩

/-- C6 (code evaluation): after a disconnect/reconnect cycle the driver
does re-enter the initialising state and re-send the full initialisation
sequence, but `prev_req_id`/`prev_rsp_id`/`prev_header_size` keep their
cached values, so the first request after reconnection with unchanged ids
emits only the payload line — the ATSH and ATCRA the claim requires are
not re-emitted. -/
theorem elm327_reconnect_keeps_cached_ids :
    let s0 : ElmState := ⟨OP_ST_CONNECTED, HEADER_SIZE_UNDEF, 0, 0, false, true⟩
    let data : List Nat := [0x03, 0x22, 0x11, 0x03, 0x00, 0x00, 0x00, 0x00]
    let r1 := can_driver_elm327_tx_packet s0 0x797 0x79A data fun _ => TxRes.complete
    let s2 := can_driver_elm327_set_connected r1.s false
    let s3 := can_driver_elm327_set_connected s2 true
    let p := elm327_task_init_pass s3 false
    let r2 := can_driver_elm327_tx_packet p.1 0x797 0x79A data fun _ => TxRes.complete
    r1.cmds = [ElmCmd.attp 6, ElmCmd.atsh 0x797, ElmCmd.atfcsh 0x797,
               ElmCmd.atcra 0x79A, ElmCmd.payload (hex_encode data)] ∧
    s2.op_state = OP_ST_DISCONNECTED ∧
    s3.op_state = OP_ST_INIT_ELM327 ∧
    p.2 = elm327_init_cmd ∧
    p.1.op_state = OP_ST_CONNECTED ∧
    p.1.prev_req_id = 0x797 ∧ p.1.prev_rsp_id = 0x79A ∧
    r2.ok = true ∧
    r2.cmds = [ElmCmd.payload (hex_encode data)] := by
  decide

/-! ### ELM327 response-line parser (`_can_driver_elm327_process_rx_buf`)

The per-character state of the parsing loop: `first_char`, `high_nibble`,
`has_version`, `saw_data`, `success` are the loop's flags, `n` the byte
index and `data` the 8-entry `uint8_t data[8]` array (a length-8 list).
`tx_state` selects the `TX_ST_AT_CMD` / `TX_ST_REQ_PKT` branch.  The
version-string collector only feeds `elm327_version_string`, so it has no
effect on this state beyond `has_version`. -/

def TX_ST_IDLE : Nat := 0

def TX_ST_AT_CMD : Nat := 1

def TX_ST_REQ_PKT : Nat := 2

/-- `_can_driver_elm327_is_hex_char` -/
def elm327_is_hex_char (c : Nat) : Bool :=
  (0x30 ≤ c && c ≤ 0x39) || (0x61 ≤ c && c ≤ 0x66) || (0x41 ≤ c && c ≤ 0x46)

/-- `_can_driver_elm327_ascii_to_nibble` -/
def elm327_ascii_to_nibble (c : Nat) : Nat :=
  if 0x30 ≤ c ∧ c ≤ 0x39 then c - 0x30
  else if 0x61 ≤ c ∧ c ≤ 0x66 then 10 + (c - 0x61)
  else if 0x41 ≤ c ∧ c ≤ 0x46 then 10 + (c - 0x41)
  else 0

structure ElmParseState where
  first_char : Bool
  high_nibble : Bool
  has_version : Bool
  saw_data : Bool
  success : Bool
  n : Nat
  data : List Nat
  deriving Repr, DecidableEq

/-- The `TX_ST_REQ_PKT` hex-character branch (lines 492-509): store two
hex characters per byte, but only while `n < 8`; the `uint8_t` store
truncates mod 256. -/
def elm327_parse_hex (p : ElmParseState) (c : Nat) : ElmParseState :=
  let p1 := if p.first_char then { p with saw_data := true, success := true } else p
  if p1.n < 8 then
    if p1.high_nibble then
      { p1 with data := p1.data.set p1.n (elm327_ascii_to_nibble c),
                high_nibble := false }
    else
      let b := ((p1.data.getD p1.n 0 <<< 4) ||| elm327_ascii_to_nibble c) % 256
      { p1 with data := p1.data.set p1.n b,
                n := p1.n + 1, high_nibble := true }
  else p1

/-- One iteration of the parsing loop body for character `c`, returning
the new state and the frames delivered to `can_rx_packet` (as
`(n, data)` pairs). -/
def elm327_parse_char (tx_state : Nat) (p : ElmParseState) (c : Nat) :
    ElmParseState × List (Nat × List Nat) :=
  if c = 0x0D ∨ c = 0x0A then
    ({ p with saw_data := false, first_char := true, has_version := false,
              high_nibble := true, n := 0 },
     if p.saw_data then [(p.n, p.data)] else [])
  else
    let p2 :=
      if tx_state = TX_ST_AT_CMD then
        if p.first_char then
          if c = 0x4F ∨ c = 0x45 then
            let p1 := { p with success := true }
            if c = 0x45 then { p1 with has_version := true } else p1
          else if c = 0x3F then { p with success := false }
          else p
        else p
      else if tx_state = TX_ST_REQ_PKT then
        if elm327_is_hex_char c then elm327_parse_hex p c
        else if c = 0x20 then
          if p.high_nibble = false then { p with n := p.n + 1, high_nibble := true }
          else p
        else if p.first_char then { p with success := false }
        else p
      else p
    ({ p2 with first_char := false }, [])

/-- The parsing loop over the characters of a response (up to the `>`
terminator), concatenating all deliveries. -/
def elm327_process_chars (tx_state : Nat) (p : ElmParseState) :
    List Nat → ElmParseState × List (Nat × List Nat)
  | [] => (p, [])
  | c :: cs =>
    let r := elm327_parse_char tx_state p c
    let rest := elm327_process_chars tx_state r.1 cs
    (rest.1, r.2 ++ rest.2)

/-- The loop invariant of the claim: the byte index never exceeds 8,
an in-progress (low-nibble-pending) byte is at an index strictly below
8, and the array keeps its 8 entries. -/
def ElmParseInv (p : ElmParseState) : Prop :=
  p.n ≤ 8 ∧ (p.high_nibble = false → p.n < 8) ∧ p.data.length = 8

theorem elm327_parse_hex_inv (p : ElmParseState) (c : Nat)
    (h : ElmParseInv p) : ElmParseInv (elm327_parse_hex p c) := by
  obtain ⟨fc, hnib, hv, sd, su, n, data⟩ := p
  obtain ⟨h1, h2, h3⟩ := h
  have h1' : n ≤ 8 := h1
  have h2' : hnib = false → n < 8 := h2
  have h3' : data.length = 8 := h3
  clear h1 h2 h3
  rcases Nat.lt_or_ge n 8 with hn | hn
  · cases fc <;> cases hnib <;>
      simp [elm327_parse_hex, hn, ElmParseInv, List.length_set, h3'] <;> omega
  · have hn' : ¬ n < 8 := Nat.not_lt.mpr hn
    cases hnib
    · exact absurd (h2' rfl) hn'
    · cases fc <;> simp [elm327_parse_hex, hn', ElmParseInv, h3'] <;> omega

theorem elm327_parse_char_inv (tx_state : Nat) (p : ElmParseState) (c : Nat)
    (h : ElmParseInv p) :
    ElmParseInv (elm327_parse_char tx_state p c).1 ∧
    ∀ d ∈ (elm327_parse_char tx_state p c).2, d.1 ≤ 8 ∧ d.2.length = 8 := by
  obtain ⟨h1, h2, h3⟩ := h
  by_cases hcr : c = 0x0D ∨ c = 0x0A
  · refine ⟨?_, ?_⟩
    · simp [elm327_parse_char, hcr, ElmParseInv, h3]
    · intro d hd
      simp only [elm327_parse_char, hcr, if_true] at hd
      by_cases hs : p.saw_data = true <;> simp [hs] at hd
      subst hd
      exact ⟨h1, h3⟩
  · refine ⟨?_, ?_⟩
    · simp only [elm327_parse_char, hcr, if_false]
      by_cases hat : tx_state = TX_ST_AT_CMD
      · by_cases hf : p.first_char = true <;>
          by_cases hoe : c = 0x4F ∨ c = 0x45 <;>
          by_cases he : c = 0x45 <;>
          by_cases hq : c = 0x3F <;>
          simp_all [ElmParseInv]
      · by_cases hreq : tx_state = TX_ST_REQ_PKT
        · by_cases hhex : elm327_is_hex_char c = true
          · have := elm327_parse_hex_inv p c ⟨h1, h2, h3⟩
            simp_all [ElmParseInv]
          · by_cases hsp : c = 0x20
            · by_cases hh : p.high_nibble = false <;>
                simp_all [ElmParseInv] <;> omega
            · by_cases hf : p.first_char = true <;> simp_all [ElmParseInv]
        · simp_all [ElmParseInv]
    · intro d hd
      simp only [elm327_parse_char, hcr, if_false] at hd
      simp at hd

/-- C10: the ELM327 response-line parser decodes at most 8 bytes per
line.  From any state satisfying the loop invariant (byte index at most
8, pending low nibble only below 8, 8-entry array), processing any
character sequence preserves the invariant and every synthetic frame
delivered to `can_rx_packet` has length `n ≤ 8` with the 8-entry data
array intact; moreover once 8 bytes have accumulated, a further hex
digit leaves the byte index and the data array unchanged (the pair is
discarded), so the `data[8]` array is never indexed out of bounds. -/
theorem elm327_rx_line_parse_bounded (tx_state : Nat) (cs : List Nat)
    (p : ElmParseState) (h : ElmParseInv p) :
    ElmParseInv (elm327_process_chars tx_state p cs).1 ∧
    (∀ d ∈ (elm327_process_chars tx_state p cs).2, d.1 ≤ 8 ∧ d.2.length = 8) ∧
    (∀ q : ElmParseState, ∀ c, q.n = 8 →
      (elm327_parse_hex q c).n = 8 ∧ (elm327_parse_hex q c).data = q.data) := by
  refine ⟨?_, ?_, ?_⟩
  · induction cs generalizing p with
    | nil => exact h
    | cons c cs ih =>
      exact ih _ (elm327_parse_char_inv tx_state p c h).1
  · induction cs generalizing p with
    | nil => intro d hd; simp [elm327_process_chars] at hd
    | cons c cs ih =>
      intro d hd
      simp only [elm327_process_chars, List.mem_append] at hd
      rcases hd with hd | hd
      · exact (elm327_parse_char_inv tx_state p c h).2 d hd
      · exact ih _ (elm327_parse_char_inv tx_state p c h).1 d hd
  · intro q c hq
    have hq' : ¬ q.n < 8 := by omega
    by_cases hf : q.first_char = true <;>
      simp [elm327_parse_hex, hf, hq', hq]

/-- Witness for C10: parsing the response line "04 62" followed by CR in
request state 2 from the initial parser state delivers exactly one
4-then-0x62-prefixed 8-entry frame with byte count 2, and the invariant
holds throughout. -/
theorem elm327_rx_line_parse_bounded_witness :
    (ElmParseInv (elm327_process_chars 2
        ⟨true, true, false, false, false, 0, List.replicate 8 0⟩
        [0x30, 0x34, 0x20, 0x36, 0x32, 0x0D]).1 ∧
      (∀ d ∈ (elm327_process_chars 2
          ⟨true, true, false, false, false, 0, List.replicate 8 0⟩
          [0x30, 0x34, 0x20, 0x36, 0x32, 0x0D]).2,
        d.1 ≤ 8 ∧ d.2.length = 8) ∧
      (∀ q : ElmParseState, ∀ c, q.n = 8 →
        (elm327_parse_hex q c).n = 8 ∧ (elm327_parse_hex q c).data = q.data)) ∧
    (elm327_process_chars 2
        ⟨true, true, false, false, false, 0, List.replicate 8 0⟩
        [0x30, 0x34, 0x20, 0x36, 0x32, 0x0D]).2 =
      [(2, [4, 0x62, 0, 0, 0, 0, 0, 0])] := by
  refine ⟨elm327_rx_line_parse_bounded 2 [0x30, 0x34, 0x20, 0x36, 0x32, 0x0D]
    ⟨true, true, false, false, false, 0, List.replicate 8 0⟩ ⟨by decide, by decide, by decide⟩, by decide⟩
end EvInfo
